import Mathlib

/-!
Verification of the `gold_bull.icli_vnext` interactive console
(`src/gold_bull/icli_vnext/__init__.py`).

The Python module is shallowly embedded:
* Python strings are Lean `String`s; the Python string operations
  `str.startswith`, `str.endswith`, slicing `s[:-n]` and `sep.join`
  are modelled at codepoint level (`py_startswith`, `py_endswith`,
  `py_dropright`, `py_join`), matching Python's per-codepoint semantics.
* An executor is a `can_run_cmd` predicate together with a `run`
  effect; `ChainCommandExecutor.run` either returns the effect of the
  first claiming executor or fails with the command line
  (`CommandNotFoundException(command_line)` is `Except.error command_line`).
* The console (`InteractiveConsole`) is modelled as a state machine over
  the continuation buffer and the `continue_input` flag; its observable
  actions (reads, dispatches, history appends, stdout echoes, stderr
  writes) are recorded in a trace of `Event`s.  The abstract executor
  the console drives is a function `String → RunResult` where
  `RunResult` encodes normal return, `ForwardToExecutorException`,
  `KeyboardInterrupt` and `CommandNotFoundException` outcomes of
  `AbstractCommandExecutor.run`.
* The recursion in `__run_executor` (forward replay) is, in Python,
  bounded only by the call stack; the embedding makes it total with an
  explicit fuel parameter (`Err.outOfFuel` marks fuel exhaustion, a
  model artifact that no theorem relies on).
-/

/-- Python `s.startswith(pre)`: codepoint-level prefix test. -/
def py_startswith (s pre : String) : Bool :=
  pre.data.isPrefixOf s.data

/-- Python `s.endswith(post)`: codepoint-level suffix test. -/
def py_endswith (s post : String) : Bool :=
  post.data.isSuffixOf s.data

/-- Python `s[:-n]` (for `n ≥ 1`): drop the last `n` codepoints. -/
def py_dropright (s : String) (n : Nat) : String :=
  ⟨s.data.take (s.data.length - n)⟩

/-- Python `sep.join(l)`. -/
def py_join (sep : String) : List String → String
  | [] => ""
  | [a] => a
  | a :: b :: rest => a ++ sep ++ py_join sep (b :: rest)

/-- An executor: `can_run_cmd` plus an abstract `run` effect of type `ε`
(the embedding of `AbstractCommandExecutor`). -/
structure Executor (ε : Type) where
  can_run_cmd : String → Bool
  run : String → ε

namespace BuiltInCommandExecutor

/-- Keys of `BuiltInCommandExecutor.__built_in_cmd`. -/
def built_in_cmd : List String := ["clear()", "exit()"]

/-- `BuiltInCommandExecutor.can_run_cmd`: membership among the built-in keys. -/
def can_run_cmd (source : String) : Bool :=
  built_in_cmd.contains source

end BuiltInCommandExecutor

namespace ShellCommandExecutor

/-- `ShellCommandExecutor.can_run_cmd`: always true. -/
def can_run_cmd (_source : String) : Bool := true

end ShellCommandExecutor

namespace PythonCommandExecutor

/-- `PythonCommandExecutor.can_run_cmd`: the line starts with `"##python\n"`. -/
def can_run_cmd (command_line : String) : Bool :=
  py_startswith command_line "##python\n"

end PythonCommandExecutor

/-- Abstract effect labels for the concrete executors' `run` methods
(screen clear / `exec` / subprocess are opaque side effects). -/
inductive Effect where
  | builtin_run (source : String)
  | python_run (command_line : String)
  | shell_run (command_line : String)
  | user_run (tag : Nat) (command_line : String)
deriving DecidableEq

/-- The default `BuiltInCommandExecutor()` instance. -/
def BuiltInCommandExecutor.executor : Executor Effect :=
  ⟨BuiltInCommandExecutor.can_run_cmd, Effect.builtin_run⟩

/-- The default `PythonCommandExecutor()` instance. -/
def PythonCommandExecutor.executor : Executor Effect :=
  ⟨PythonCommandExecutor.can_run_cmd, Effect.python_run⟩

/-- The default `ShellCommandExecutor()` instance. -/
def ShellCommandExecutor.executor : Executor Effect :=
  ⟨ShellCommandExecutor.can_run_cmd, Effect.shell_run⟩

namespace ChainCommandExecutor

/-- `ChainCommandExecutor.__init__`: builds `self.__executors` by appending
the builtin executor, extending with the caller-supplied list, then
appending the python and shell executors (the two `include_default_executors`
guards of the source). -/
def init (include_default_executors : Bool) (executors : Option (List (Executor Effect))) :
    List (Executor Effect) :=
  (if include_default_executors then [BuiltInCommandExecutor.executor] else [])
    ++ (match executors with
        | some l => l
        | none => [])
    ++ (if include_default_executors then
          [PythonCommandExecutor.executor, ShellCommandExecutor.executor]
        else [])

/-- `ChainCommandExecutor.can_run_cmd`: some member executor claims the line. -/
def can_run_cmd {ε : Type} (executors : List (Executor ε)) (source : String) : Bool :=
  executors.any fun e => e.can_run_cmd source

/-- `ChainCommandExecutor.run`: run the first executor whose `can_run_cmd`
holds; raise `CommandNotFoundException(command_line)` when none does. -/
def run {ε : Type} (executors : List (Executor ε)) (command_line : String) :
    Except String ε :=
  match executors with
  | [] => Except.error command_line
  | e :: rest =>
    if e.can_run_cmd command_line then Except.ok (e.run command_line)
    else run rest command_line

end ChainCommandExecutor

/-- Outcome of one call to the console's executor `run` method
(normal return, `ForwardToExecutorException`, `KeyboardInterrupt`,
`CommandNotFoundException`). -/
inductive RunResult where
  | ok
  | forward (commands : List String)
  | interrupt
  | notFound
deriving DecidableEq

/-- Exceptions propagating out of `__run_executor` / `__run_command`
(`Err.outOfFuel` is the fuel-exhaustion artifact of the model). -/
inductive Err where
  | interrupt
  | notFound (line : String)
  | outOfFuel
deriving DecidableEq

/-- Observable console actions: `read p` is `input(p)`; `dispatch l` is a
call `self.__executor.run(l)`; `history c` is `readline.add_history(c)`;
`stdout s` is `print(s)` (stdout gains `s` plus a newline); `stderr d` is
`self.__write(d)`, i.e. `print(d, file=sys.stderr)` (stderr gains `d`
plus a newline). -/
inductive Event where
  | read (prompt : String)
  | dispatch (line : String)
  | history (command : String)
  | stdout (s : String)
  | stderr (data : String)
deriving DecidableEq

/-- `self.__prompt_new`. -/
def prompt_new : String := ">> "

/-- `self.__prompt_continue`. -/
def prompt_continue : String := ".. "

/-- The console's mutable continuation state: `self.__buffer` and
`self.__continue_input`. -/
structure ConsoleState where
  buffer : List String
  continue_input : Bool
deriving DecidableEq

/-- `InteractiveConsole.__resetbuffer`: empty buffer, flag cleared.
Also the state established by `__init__`. -/
def resetbuffer : ConsoleState := ⟨[], false⟩

mutual

/-- `InteractiveConsole.__run_executor`, with fuel for the forward-replay
recursion: run the line through the executor; on a forward request replay
each forwarded command via `run_forward`. -/
def run_executor (ex : String → RunResult) : Nat → String → List Event × Option Err
  | 0, _ => ([], some Err.outOfFuel)
  | fuel + 1, line =>
    match ex line with
    | RunResult.ok => ([Event.dispatch line], none)
    | RunResult.interrupt => ([Event.dispatch line], some Err.interrupt)
    | RunResult.notFound => ([Event.dispatch line], some (Err.notFound line))
    | RunResult.forward cmds =>
      let r := run_forward ex fuel cmds
      (Event.dispatch line :: r.1, r.2)
termination_by fuel _ => (fuel, 0)

/-- The `for command in ex.commands` loop of `__run_executor`: append to
history, echo with the primary prompt, recursively dispatch; an exception
from the recursive dispatch aborts the loop and propagates. -/
def run_forward (ex : String → RunResult) : Nat → List String → List Event × Option Err
  | _, [] => ([], none)
  | fuel, command :: rest =>
    let r := run_executor ex fuel command
    match r.2 with
    | some e =>
      (Event.history command :: Event.stdout (prompt_new ++ command) :: r.1, some e)
    | none =>
      let r2 := run_forward ex fuel rest
      (Event.history command :: Event.stdout (prompt_new ++ command) :: (r.1 ++ r2.1), r2.2)
termination_by fuel cmds => (fuel, cmds.length + 1)

end

/-- `InteractiveConsole.__run_command`: strip the continuation marker
`" \"` when present, append to the buffer; on a complete command join the
buffer with newlines, dispatch it, and reset the buffer.  When the
dispatch raises, the buffer keeps the appended line and the flag its old
value (the assignments after the `await` do not execute). -/
def run_command (ex : String → RunResult) (fuel : Nat) (st : ConsoleState) (line : String) :
    ConsoleState × List Event × Option Err :=
  let more := py_endswith line " \\"
  let line' := if more then py_dropright line 2 else line
  let buffer := st.buffer ++ [line']
  if more then
    (⟨buffer, true⟩, [], none)
  else
    let source := py_join "\n" buffer
    let r := run_executor ex fuel source
    match r.2 with
    | none => (resetbuffer, r.1, none)
    | some e => (⟨buffer, st.continue_input⟩, r.1, some e)

/-- One element of the input stream consumed by `input(prompt)`: either a
line, or a `KeyboardInterrupt` delivered while waiting for input; the end
of the list is `EOFError`. -/
inductive InEvent where
  | line (s : String)
  | interrupt
deriving DecidableEq

/-- How the `while True` loop of `interact` ended. -/
inductive ExitKind where
  | eof
  | interrupted
  | fuelOut
deriving DecidableEq

/-- Result of running the `interact` loop: the event trace, the console
state at each moment the loop was about to read a line, the final state,
and how the loop exited. -/
structure LoopResult where
  trace : List Event
  readStates : List ConsoleState
  final : ConsoleState
  exit : ExitKind
deriving DecidableEq

/-- The prompt chosen at the top of the loop body. -/
def prompt_of (st : ConsoleState) : String :=
  if st.continue_input then prompt_continue else prompt_new

/-- The `while True` loop of `InteractiveConsole.interact`:
`EOFError` writes a newline to stderr and breaks; a `KeyboardInterrupt`
resets the buffer and breaks; a `CommandNotFoundException` resets the
buffer, writes the error to stderr and continues. -/
def interact_loop (ex : String → RunResult) (fuel : Nat) (st : ConsoleState) :
    List InEvent → LoopResult
  | [] =>
    ⟨[Event.read (prompt_of st), Event.stderr "\n"], [st], st, ExitKind.eof⟩
  | InEvent.interrupt :: _ =>
    ⟨[Event.read (prompt_of st)], [st], resetbuffer, ExitKind.interrupted⟩
  | InEvent.line l :: rest =>
    let r := run_command ex fuel st l
    match r.2.2 with
    | none =>
      let lr := interact_loop ex fuel r.1 rest
      ⟨Event.read (prompt_of st) :: (r.2.1 ++ lr.trace), st :: lr.readStates, lr.final, lr.exit⟩
    | some Err.interrupt =>
      ⟨Event.read (prompt_of st) :: r.2.1, [st], resetbuffer, ExitKind.interrupted⟩
    | some (Err.notFound s) =>
      let lr := interact_loop ex fuel resetbuffer rest
      ⟨Event.read (prompt_of st) :: (r.2.1 ++ Event.stderr s :: lr.trace),
       st :: lr.readStates, lr.final, lr.exit⟩
    | some Err.outOfFuel =>
      ⟨Event.read (prompt_of st) :: r.2.1, [st], r.1, ExitKind.fuelOut⟩

/-- The farewell write at the end of `interact`:
`if exitmsg is not None and exitmsg != '': self.__write('%s\n' % exitmsg)`. -/
def farewell_events : Option String → List Event
  | none => []
  | some m => if m = "" then [] else [Event.stderr (m ++ "\n")]

/-- `InteractiveConsole.interact`: the loop's trace followed by the
farewell write. -/
def interact (ex : String → RunResult) (fuel : Nat) (exitmsg : Option String)
    (st : ConsoleState) (inputs : List InEvent) : List Event :=
  (interact_loop ex fuel st inputs).trace ++ farewell_events exitmsg

/-- The sequence of lines dispatched to the executor in a trace. -/
def dispatches (trace : List Event) : List String :=
  trace.filterMap fun e =>
    match e with
    | Event.dispatch s => some s
    | _ => none

/-- The exact text `print(·, file=sys.stderr)` produced on the standard
error stream for a trace: each `stderr d` event contributes `d` plus one
newline. -/
def stderr_bytes (trace : List Event) : String :=
  String.join (trace.filterMap fun e =>
    match e with
    | Event.stderr d => some (d ++ "\n")
    | _ => none)

/-! ### Equation lemmas for the fueled dispatch functions

`run_executor`/`run_forward` are compiled by well-founded recursion, so
their defining equations are exposed as rewrite lemmas. -/

lemma run_executor_zero (ex : String → RunResult) (l : String) :
    run_executor ex 0 l = ([], some Err.outOfFuel) := by
  simp [run_executor]

lemma run_executor_ok {ex : String → RunResult} {l : String} (fuel : Nat)
    (h : ex l = RunResult.ok) :
    run_executor ex (fuel + 1) l = ([Event.dispatch l], none) := by
  simp [run_executor, h]

lemma run_executor_interrupt {ex : String → RunResult} {l : String} (fuel : Nat)
    (h : ex l = RunResult.interrupt) :
    run_executor ex (fuel + 1) l = ([Event.dispatch l], some Err.interrupt) := by
  simp [run_executor, h]

lemma run_executor_notFound {ex : String → RunResult} {l : String} (fuel : Nat)
    (h : ex l = RunResult.notFound) :
    run_executor ex (fuel + 1) l = ([Event.dispatch l], some (Err.notFound l)) := by
  simp [run_executor, h]

lemma run_executor_forward {ex : String → RunResult} {l : String} {cmds : List String}
    (fuel : Nat) (h : ex l = RunResult.forward cmds) :
    run_executor ex (fuel + 1) l =
      (Event.dispatch l :: (run_forward ex fuel cmds).1, (run_forward ex fuel cmds).2) := by
  simp [run_executor, h]

lemma run_forward_nil (ex : String → RunResult) (fuel : Nat) :
    run_forward ex fuel [] = ([], none) := by
  simp [run_forward]

lemma run_forward_cons_err {ex : String → RunResult} {fuel : Nat} {c : String} {e : Err}
    (rest : List String) (h : (run_executor ex fuel c).2 = some e) :
    run_forward ex fuel (c :: rest) =
      (Event.history c :: Event.stdout (prompt_new ++ c) :: (run_executor ex fuel c).1,
       some e) := by
  simp [run_forward, h]

lemma run_forward_cons_ok {ex : String → RunResult} {fuel : Nat} {c : String}
    (rest : List String) (h : (run_executor ex fuel c).2 = none) :
    run_forward ex fuel (c :: rest) =
      (Event.history c :: Event.stdout (prompt_new ++ c) ::
          ((run_executor ex fuel c).1 ++ (run_forward ex fuel rest).1),
       (run_forward ex fuel rest).2) := by
  simp [run_forward, h]

/-! ### Helper lemmas about the executor chain -/

lemma chain_run_found {ε : Type} (l : String) :
    ∀ (es : List (Executor ε)) (e : Executor ε),
      List.find? (fun x => x.can_run_cmd l) es = some e →
      ChainCommandExecutor.run es l = Except.ok (e.run l) := by
  intro es
  induction es with
  | nil => intro e h; simp at h
  | cons hd tl ih =>
    intro e h
    by_cases hc : hd.can_run_cmd l
    · simp only [List.find?, hc] at h
      cases h
      simp [ChainCommandExecutor.run, hc]
    · simp only [List.find?, hc, Bool.false_eq_true] at h
      simp only [ChainCommandExecutor.run, if_neg hc]
      exact ih e h

lemma chain_run_error_iff {ε : Type} (l m : String) :
    ∀ es : List (Executor ε),
      ChainCommandExecutor.run es l = Except.error m ↔
        (m = l ∧ ∀ e ∈ es, e.can_run_cmd l = false) := by
  intro es
  induction es with
  | nil =>
    constructor
    · intro h
      injection h with h'
      exact ⟨h'.symm, fun e he => absurd he (List.not_mem_nil e)⟩
    · rintro ⟨rfl, -⟩
      rfl
  | cons hd tl ih =>
    by_cases hc : hd.can_run_cmd l
    · simp [ChainCommandExecutor.run, hc]
    · simp only [ChainCommandExecutor.run, if_neg hc, ih, List.mem_cons]
      constructor
      · rintro ⟨rfl, h⟩
        exact ⟨rfl, fun e he => he.elim (fun h' => h' ▸ Bool.eq_false_iff.mpr hc) (h e)⟩
      · rintro ⟨rfl, h⟩
        exact ⟨rfl, fun e he => h e (Or.inr he)⟩

lemma chain_run_ok_of_mem {ε : Type} {es : List (Executor ε)} {l : String}
    (h : ∃ e ∈ es, e.can_run_cmd l = true) :
    ∃ v, ChainCommandExecutor.run es l = Except.ok v := by
  cases hrun : ChainCommandExecutor.run es l with
  | ok v => exact ⟨v, rfl⟩
  | error m =>
    obtain ⟨e, he, hc⟩ := h
    obtain ⟨-, hall⟩ := (chain_run_error_iff l m es).mp hrun
    exact absurd (hall e he) (by simp [hc])

/-! ### Claim theorems: the executor chain -/

/-- C1: `ChainCommandExecutor.run` dispatches to exactly the first executor
(in configured order) whose `can_run_cmd` returns true for the line, invokes
no later executor, and raises `CommandNotFound` carrying the original
command line if and only if no executor in the chain claims the line. -/
theorem chain_dispatch_first_match {ε : Type} (es : List (Executor ε)) (l : String) :
    (∀ e : Executor ε,
      List.find? (fun x => x.can_run_cmd l) es = some e →
      ChainCommandExecutor.run es l = Except.ok (e.run l))
    ∧ (ChainCommandExecutor.run es l = Except.error l ↔
        ∀ e ∈ es, e.can_run_cmd l = false)
    ∧ (∀ m, ChainCommandExecutor.run es l = Except.error m → m = l) := by
  refine ⟨fun e h => chain_run_found l es e h, ?_, ?_⟩
  · rw [chain_run_error_iff]
    simp
  · intro m h
    exact ((chain_run_error_iff l m es).mp h).1

/-- A two-member demonstration chain: the first executor claims exactly
`"a"` (effect `1`), the second claims everything (effect `2`). -/
def demo_first : Executor Nat := ⟨fun s => s == "a", fun _ => 1⟩

/-- Catch-all second executor of the demonstration chain. -/
def demo_second : Executor Nat := ⟨fun _ => true, fun _ => 2⟩

/-- Demonstration chain for the C1 witness. -/
def demo_chain : List (Executor Nat) := [demo_first, demo_second]

/-- Witness for C1: on `"a"` the chain runs the first executor (effect `1`,
not the catch-all's `2`), and the empty chain fails carrying the line. -/
theorem chain_dispatch_first_match_witness :
    ChainCommandExecutor.run demo_chain "a" = Except.ok 1
    ∧ ChainCommandExecutor.run ([] : List (Executor Nat)) "x" = Except.error "x" :=
  ⟨(chain_dispatch_first_match demo_chain "a").1 demo_first rfl,
   (chain_dispatch_first_match ([] : List (Executor Nat)) "x").2.1.mpr (by simp)⟩

/-- C6: `BuiltInCommandExecutor.can_run_cmd` returns true iff the line is
exactly `"clear()"` or exactly `"exit()"`. -/
theorem builtin_claims_exactly (source : String) :
    BuiltInCommandExecutor.can_run_cmd source = true ↔
      (source = "clear()" ∨ source = "exit()") := by
  simp [BuiltInCommandExecutor.can_run_cmd, BuiltInCommandExecutor.built_in_cmd,
    List.contains_iff_exists_mem_beq]

/-- C10: in the default configuration the shell executor claims every line,
hence the chain claims every line and `ChainCommandExecutor.run` never
raises `CommandNotFound`. -/
theorem default_chain_total (users : Option (List (Executor Effect))) (l : String) :
    ShellCommandExecutor.can_run_cmd l = true
    ∧ ChainCommandExecutor.can_run_cmd (ChainCommandExecutor.init true users) l = true
    ∧ ∃ v, ChainCommandExecutor.run (ChainCommandExecutor.init true users) l = Except.ok v := by
  have hmem : ShellCommandExecutor.executor ∈ ChainCommandExecutor.init true users := by
    cases users <;> simp [ChainCommandExecutor.init]
  refine ⟨rfl, ?_, chain_run_ok_of_mem ⟨ShellCommandExecutor.executor, hmem, rfl⟩⟩
  rw [ChainCommandExecutor.can_run_cmd, List.any_eq_true]
  exact ⟨ShellCommandExecutor.executor, hmem, rfl⟩

/-! ### Claim theorems: the console loop -/

/-- C5: an interrupt signal received at any point of the read-eval loop
(any console state, in particular Continuing) clears the continuation
buffer and exits the loop; no further input is read, and the discarded
buffered fragments are never dispatched. -/
theorem interrupt_clears_and_exits (ex : String → RunResult) (fuel : Nat)
    (st : ConsoleState) (rest : List InEvent) :
    interact_loop ex fuel st (InEvent.interrupt :: rest) =
      ⟨[Event.read (prompt_of st)], [st], resetbuffer, ExitKind.interrupted⟩
    ∧ dispatches (interact_loop ex fuel st (InEvent.interrupt :: rest)).trace = []
    ∧ (interact_loop ex fuel st (InEvent.interrupt :: rest)).final.buffer = [] :=
  ⟨rfl, rfl, rfl⟩

/-- C4: when a dispatch raises `CommandNotFound`, the loop clears the
buffer, writes the offending line to stderr, and continues reading from
the Idle state; when the dispatch instead raises the interrupt, the loop
exits — `CommandNotFound` is the only loop-continuing failure. -/
theorem command_not_found_recovers (ex : String → RunResult) (fuel : Nat)
    (st : ConsoleState) (l : String) (rest : List InEvent)
    (st' : ConsoleState) (evs : List Event) :
    (∀ s, run_command ex fuel st l = (st', evs, some (Err.notFound s)) →
      interact_loop ex fuel st (InEvent.line l :: rest) =
        ⟨Event.read (prompt_of st) ::
            (evs ++ Event.stderr s :: (interact_loop ex fuel resetbuffer rest).trace),
         st :: (interact_loop ex fuel resetbuffer rest).readStates,
         (interact_loop ex fuel resetbuffer rest).final,
         (interact_loop ex fuel resetbuffer rest).exit⟩)
    ∧ (run_command ex fuel st l = (st', evs, some Err.interrupt) →
      interact_loop ex fuel st (InEvent.line l :: rest) =
        ⟨Event.read (prompt_of st) :: evs, [st], resetbuffer, ExitKind.interrupted⟩) := by
  constructor
  · intro s h
    simp [interact_loop, h]
  · intro h
    simp [interact_loop, h]

/-- An executor that claims nothing: every dispatch raises
`CommandNotFoundException`. -/
def ex_nf : String → RunResult := fun _ => RunResult.notFound

/-- Witness for C4: dispatching `"x"` through `ex_nf` reports the error
and the loop keeps reading from Idle. -/
theorem command_not_found_recovers_witness :
    interact_loop ex_nf 1 resetbuffer [InEvent.line "x"] =
      ⟨Event.read (prompt_of resetbuffer) ::
          ([Event.dispatch "x"] ++
            Event.stderr "x" :: (interact_loop ex_nf 1 resetbuffer []).trace),
       resetbuffer :: (interact_loop ex_nf 1 resetbuffer []).readStates,
       (interact_loop ex_nf 1 resetbuffer []).final,
       (interact_loop ex_nf 1 resetbuffer []).exit⟩ :=
  (command_not_found_recovers ex_nf 1 resetbuffer "x" []
    ⟨["x"], false⟩ [Event.dispatch "x"]).1 "x" (by
      have h1 : run_executor ex_nf 1 "x" = ([Event.dispatch "x"], some (Err.notFound "x")) :=
        run_executor_notFound 0 rfl
      simp +decide [run_command, h1, py_join, resetbuffer])

/-- An executor that handles every line silently. -/
def ex_ok : String → RunResult := fun _ => RunResult.ok

/-- Counterexample to C8 as stated: with farewell message `"bye"` the
bytes reaching stderr for the farewell write are `"bye\n\n"` — the message
plus two newlines (`'%s\n' % exitmsg` passed through a line-printing
write), not the message plus exactly one newline. -/
theorem farewell_single_newline_cex :
    interact ex_ok 1 (some "bye") resetbuffer [] =
      [Event.read ">> ", Event.stderr "\n", Event.stderr "bye\n"]
    ∧ stderr_bytes [Event.stderr "bye\n"] = "bye\n\n"
    ∧ "bye\n\n" ≠ "bye\n" := by
  refine ⟨rfl, by decide, by decide⟩

/-- C8 (amended): on loop exit the farewell write happens iff the message
is present and non-empty, and it contributes exactly the message plus two
trailing newlines to stderr. -/
theorem farewell_writes_message (ex : String → RunResult) (fuel : Nat)
    (st : ConsoleState) (inputs : List InEvent) (exitmsg : Option String) :
    interact ex fuel exitmsg st inputs =
      (interact_loop ex fuel st inputs).trace ++ farewell_events exitmsg
    ∧ (farewell_events exitmsg ≠ [] ↔ ∃ m, exitmsg = some m ∧ m ≠ "")
    ∧ (∀ m, m ≠ "" → stderr_bytes (farewell_events (some m)) = m ++ "\n" ++ "\n") := by
  refine ⟨rfl, ?_, ?_⟩
  · cases exitmsg with
    | none => simp [farewell_events]
    | some m => by_cases hm : m = "" <;> simp [farewell_events, hm]
  · intro m hm
    simp [farewell_events, hm, stderr_bytes, String.join, String.append_assoc]

/-! ### Forward replay (C3) -/

lemma run_forward_all_ok (ex : String → RunResult) (fuel : Nat) :
    ∀ cmds : List String, (∀ c ∈ cmds, (run_executor ex fuel c).2 = none) →
      run_forward ex fuel cmds =
        ((cmds.map fun c =>
            Event.history c :: Event.stdout (prompt_new ++ c) :: (run_executor ex fuel c).1).flatten,
         none) := by
  intro cmds
  induction cmds with
  | nil => intro _; simp [run_forward_nil]
  | cons c rest ih =>
    intro h
    rw [run_forward_cons_ok rest (h c (List.mem_cons_self c rest)),
      ih fun d hd => h d (List.mem_cons_of_mem c hd)]
    simp

/-- C3: when the executor answers a forward request, the console replays
the forwarded commands in order; each one is appended to history, echoed
to stdout behind the primary prompt `">> "`, and re-dispatched through the
same executor, the re-dispatch being the same (recursive) procedure. -/
theorem forward_replays_in_order (ex : String → RunResult) (fuel : Nat)
    (line : String) (cmds : List String)
    (hf : ex line = RunResult.forward cmds)
    (hok : ∀ c ∈ cmds, (run_executor ex fuel c).2 = none) :
    run_executor ex (fuel + 1) line =
      (Event.dispatch line ::
        (cmds.map fun c =>
          Event.history c :: Event.stdout (prompt_new ++ c) :: (run_executor ex fuel c).1).flatten,
       none) := by
  rw [run_executor_forward fuel hf, run_forward_all_ok ex fuel cmds hok]

/-- An executor where `"f"` forwards to `"a"` and `"b"`, and `"a"` itself
forwards again to `"c"`; everything else succeeds. -/
def ex_fwd : String → RunResult := fun s =>
  if s = "f" then RunResult.forward ["a", "b"]
  else if s = "a" then RunResult.forward ["c"]
  else RunResult.ok

/-- Witness for C3: replaying `["a","b"]` forwarded by `"f"`, where `"a"`
triggers a further (recursively handled) forward. -/
theorem forward_replays_in_order_witness :
    run_executor ex_fwd 3 "f" =
      (Event.dispatch "f" ::
        ((["a", "b"]).map fun c =>
          Event.history c :: Event.stdout (prompt_new ++ c) :: (run_executor ex_fwd 2 c).1).flatten,
       none) :=
  forward_replays_in_order ex_fwd 2 "f" ["a", "b"] (by decide) (by
    intro c hc
    have hca : run_executor ex_fwd 1 "c" = ([Event.dispatch "c"], none) :=
      run_executor_ok 0 (by decide)
    have hfa : run_forward ex_fwd 1 ["c"] =
        (Event.history "c" :: Event.stdout (prompt_new ++ "c") ::
          ([Event.dispatch "c"] ++ []), none) := by
      rw [run_forward_cons_ok [] (by rw [hca]), run_forward_nil, hca]
    simp only [List.mem_cons, List.not_mem_nil, or_false] at hc
    rcases hc with rfl | rfl
    · rw [run_executor_forward 1 (show ex_fwd "a" = RunResult.forward ["c"] by decide), hfa]
    · rw [run_executor_ok 1 (show ex_fwd "b" = RunResult.ok by decide)])

/-! ### Continuation buffering (C2) -/

lemma run_command_marker {l : String} (ex : String → RunResult) (fuel : Nat)
    (st : ConsoleState) (h : py_endswith l " \\" = true) :
    run_command ex fuel st l = (⟨st.buffer ++ [py_dropright l 2], true⟩, [], none) := by
  simp [run_command, h]

lemma loop_dispatch_once (ex : String → RunResult) (F : Nat) (lfin : String)
    (hfin : py_endswith lfin " \\" = false) :
    ∀ (ls : List String) (buf : List String) (flag : Bool),
      (∀ l ∈ ls, py_endswith l " \\" = true) →
      (∀ cs, ex (py_join "\n" (buf ++ (ls.map fun l => py_dropright l 2) ++ [lfin]))
        ≠ RunResult.forward cs) →
      dispatches (interact_loop ex (F + 1) ⟨buf, flag⟩
          (ls.map InEvent.line ++ [InEvent.line lfin])).trace
        = [py_join "\n" (buf ++ (ls.map fun l => py_dropright l 2) ++ [lfin])] := by
  intro ls
  induction ls with
  | nil =>
    intro buf flag _ hnf
    simp only [List.map_nil, List.append_nil, List.nil_append] at hnf ⊢
    cases hex : ex (py_join "\n" (buf ++ [lfin])) with
    | forward cs => exact absurd hex (hnf cs)
    | ok =>
      have he := run_executor_ok F hex
      simp [interact_loop, run_command, hfin, he, dispatches]
    | interrupt =>
      have he := run_executor_interrupt F hex
      simp [interact_loop, run_command, hfin, he, dispatches]
    | notFound =>
      have he := run_executor_notFound F hex
      simp [interact_loop, run_command, hfin, he, dispatches]
  | cons l ls ih =>
    intro buf flag hm hnf
    have hml : py_endswith l " \\" = true := hm l (List.mem_cons_self l ls)
    have htail : ∀ x ∈ ls, py_endswith x " \\" = true :=
      fun x hx => hm x (List.mem_cons_of_mem l hx)
    have hassoc : buf ++ ((l :: ls).map fun x => py_dropright x 2) ++ [lfin]
        = (buf ++ [py_dropright l 2]) ++ (ls.map fun x => py_dropright x 2) ++ [lfin] := by
      simp [List.append_assoc]
    rw [hassoc] at hnf ⊢
    have step := run_command_marker ex (F + 1) ⟨buf, flag⟩ hml
    simp only [List.map_cons, List.cons_append, interact_loop, step, dispatches,
      List.filterMap_cons, List.filterMap_append, List.nil_append]
    exact ih (buf ++ [py_dropright l 2]) true htail hnf

/-- C2: starting from Idle, N marker-terminated lines followed by one
plain line produce exactly one dispatch, whose command is the N+1 lines
(markers stripped) joined by newlines; for N = 0 the single line is
dispatched as-is. -/
theorem continuation_dispatch_once (ex : String → RunResult) (F : Nat)
    (ls : List String) (lfin : String)
    (hls : ∀ l ∈ ls, py_endswith l " \\" = true)
    (hfin : py_endswith lfin " \\" = false)
    (hnf : ∀ cs, ex (py_join "\n" ((ls.map fun l => py_dropright l 2) ++ [lfin]))
      ≠ RunResult.forward cs) :
    dispatches (interact_loop ex (F + 1) resetbuffer
        (ls.map InEvent.line ++ [InEvent.line lfin])).trace
      = [py_join "\n" ((ls.map fun l => py_dropright l 2) ++ [lfin])] := by
  have h := loop_dispatch_once ex F lfin hfin ls [] false hls (by simpa using hnf)
  simpa using h

/-- Witness for C2: the session `"ab \"`, `"cd"` dispatches exactly
`"ab\ncd"` once. -/
theorem continuation_dispatch_once_witness :
    dispatches (interact_loop ex_ok 1 resetbuffer
        [InEvent.line "ab \\", InEvent.line "cd"]).trace = ["ab\ncd"] :=
  continuation_dispatch_once ex_ok 0 ["ab \\"] "cd" (by decide) (by decide)
    (fun cs h => by simp [ex_ok] at h)

/-! ### Buffer/flag invariant (C7) -/

lemma run_command_full {l : String} (ex : String → RunResult) (fuel : Nat)
    (st : ConsoleState) (h : py_endswith l " \\" = false) :
    run_command ex fuel st l =
      (match (run_executor ex fuel (py_join "\n" (st.buffer ++ [l]))).2 with
       | none => (resetbuffer, (run_executor ex fuel (py_join "\n" (st.buffer ++ [l]))).1, none)
       | some e => (⟨st.buffer ++ [l], st.continue_input⟩,
                    (run_executor ex fuel (py_join "\n" (st.buffer ++ [l]))).1, some e)) := by
  simp [run_command, h]

lemma loop_readStates_inv (ex : String → RunResult) (fuel : Nat) :
    ∀ (inputs : List InEvent) (st : ConsoleState),
      (st.buffer ≠ [] ↔ st.continue_input = true) →
      ∀ s ∈ (interact_loop ex fuel st inputs).readStates,
        (s.buffer ≠ [] ↔ s.continue_input = true) := by
  intro inputs
  induction inputs with
  | nil =>
    intro st hst s hs
    simp [interact_loop] at hs
    exact hs ▸ hst
  | cons ev rest ih =>
    intro st hst s hs
    cases ev with
    | interrupt =>
      simp [interact_loop] at hs
      exact hs ▸ hst
    | line l =>
      cases hpe : py_endswith l " \\" with
      | true =>
        simp only [interact_loop, run_command_marker ex fuel st hpe, List.mem_cons] at hs
        rcases hs with rfl | hs
        · exact hst
        · exact ih ⟨st.buffer ++ [py_dropright l 2], true⟩ (by simp) s hs
      | false =>
        cases hre : (run_executor ex fuel (py_join "\n" (st.buffer ++ [l]))).2 with
        | none =>
          simp only [interact_loop, run_command_full ex fuel st hpe, hre,
            List.mem_cons] at hs
          rcases hs with rfl | hs
          · exact hst
          · exact ih resetbuffer (by simp [resetbuffer]) s hs
        | some e =>
          cases e with
          | interrupt =>
            simp only [interact_loop, run_command_full ex fuel st hpe, hre,
              List.mem_cons, List.not_mem_nil, or_false] at hs
            exact hs ▸ hst
          | notFound m =>
            simp only [interact_loop, run_command_full ex fuel st hpe, hre,
              List.mem_cons] at hs
            rcases hs with rfl | hs
            · exact hst
            · exact ih resetbuffer (by simp [resetbuffer]) s hs
          | outOfFuel =>
            simp only [interact_loop, run_command_full ex fuel st hpe, hre,
              List.mem_cons, List.not_mem_nil, or_false] at hs
            exact hs ▸ hst

lemma loop_interrupted_final (ex : String → RunResult) (fuel : Nat) :
    ∀ (inputs : List InEvent) (st : ConsoleState),
      (interact_loop ex fuel st inputs).exit = ExitKind.interrupted →
      (interact_loop ex fuel st inputs).final = resetbuffer := by
  intro inputs
  induction inputs with
  | nil => intro st h; simp [interact_loop] at h
  | cons ev rest ih =>
    intro st h
    cases ev with
    | interrupt => simp [interact_loop]
    | line l =>
      cases hpe : py_endswith l " \\" with
      | true =>
        simp only [interact_loop, run_command_marker ex fuel st hpe] at h ⊢
        exact ih _ h
      | false =>
        cases hre : (run_executor ex fuel (py_join "\n" (st.buffer ++ [l]))).2 with
        | none =>
          simp only [interact_loop, run_command_full ex fuel st hpe, hre] at h ⊢
          exact ih _ h
        | some e =>
          cases e with
          | interrupt => simp [interact_loop, run_command_full ex fuel st hpe, hre]
          | notFound m =>
            simp only [interact_loop, run_command_full ex fuel st hpe, hre] at h ⊢
            exact ih _ h
          | outOfFuel =>
            simp only [interact_loop, run_command_full ex fuel st hpe, hre] at h
            exact absurd h (by simp)

/-- C7: whenever the loop is about to read a line, the continuation
buffer is non-empty exactly when the awaiting-continuation flag is set;
the buffer is reset to empty by a completed dispatch and by an
interrupt. -/
theorem buffer_flag_invariant (ex : String → RunResult) (fuel : Nat) :
    (∀ (inputs : List InEvent) (st : ConsoleState),
      (st.buffer ≠ [] ↔ st.continue_input = true) →
      ∀ s ∈ (interact_loop ex fuel st inputs).readStates,
        (s.buffer ≠ [] ↔ s.continue_input = true))
    ∧ (∀ (st : ConsoleState) (l : String),
        py_endswith l " \\" = false →
        (run_command ex fuel st l).2.2 = none →
        (run_command ex fuel st l).1 = resetbuffer)
    ∧ (∀ (inputs : List InEvent) (st : ConsoleState),
        (interact_loop ex fuel st inputs).exit = ExitKind.interrupted →
        (interact_loop ex fuel st inputs).final = resetbuffer) := by
  refine ⟨loop_readStates_inv ex fuel, ?_, loop_interrupted_final ex fuel⟩
  intro st l hpe hnone
  rw [run_command_full ex fuel st hpe] at hnone ⊢
  cases hre : (run_executor ex fuel (py_join "\n" (st.buffer ++ [l]))).2 with
  | none => simp [hre]
  | some e => rw [hre] at hnone; simp at hnone

/-- Witness for C7: a completed dispatch resets the buffer, an interrupt
ends with a reset buffer, and the invariant holds at a concrete read
state. -/
theorem buffer_flag_invariant_witness :
    ((run_command ex_ok 1 resetbuffer "a").1 = resetbuffer)
    ∧ ((interact_loop ex_ok 1 ⟨["p"], true⟩ [InEvent.interrupt]).final = resetbuffer)
    ∧ (resetbuffer.buffer ≠ [] ↔ resetbuffer.continue_input = true) :=
  ⟨(buffer_flag_invariant ex_ok 1).2.1 resetbuffer "a" (by decide) (by
      have h1 : run_executor ex_ok 1 "a" = ([Event.dispatch "a"], none) :=
        run_executor_ok 0 rfl
      simp +decide [run_command, h1, py_join, resetbuffer]),
   (buffer_flag_invariant ex_ok 1).2.2 [InEvent.interrupt] ⟨["p"], true⟩ rfl,
   (buffer_flag_invariant ex_ok 1).1 [] resetbuffer (by simp [resetbuffer]) resetbuffer (by
      simp [interact_loop])⟩

/-! ### Default chain layout and the python executor's guard (C9) -/

lemma eq_of_newline_free_split :
    ∀ (A B D C : List Char), '\n' ∉ A → '\n' ∉ B →
      A ++ '\n' :: D = B ++ '\n' :: C → A = B := by
  intro A
  induction A with
  | nil =>
    intro B D C _ hB h
    cases B with
    | nil => rfl
    | cons b B' =>
      simp only [List.nil_append, List.cons_append] at h
      injection h with h1 _
      exact absurd (h1 ▸ List.mem_cons_self b B') hB
  | cons a A' ih =>
    intro B D C hA hB h
    cases B with
    | nil =>
      simp only [List.cons_append, List.nil_append] at h
      injection h with h1 _
      exact absurd (h1 ▸ List.mem_cons_self a A') hA
    | cons b B' =>
      simp only [List.cons_append] at h
      injection h with h1 h2
      rw [h1, ih B' D C (fun hm => hA (List.mem_cons_of_mem a hm))
        (fun hm => hB (List.mem_cons_of_mem b hm)) h2]

lemma py_join_cons_data (a b : String) (t : List String) :
    (py_join "\n" (a :: b :: t)).data = a.data ++ '\n' :: (py_join "\n" (b :: t)).data := by
  simp [py_join]

lemma python_claim_needs_nl_fragment :
    ∀ (f : String) (rest : List String), '\n' ∉ f.data →
      PythonCommandExecutor.can_run_cmd (py_join "\n" (f :: rest)) = true →
      f = "##python" ∧ rest ≠ [] := by
  intro f rest hf h
  unfold PythonCommandExecutor.can_run_cmd py_startswith at h
  rw [ List.isPrefixOf_iff_prefix] at h
  obtain ⟨t, ht⟩ := h
  have hp : ("##python\n").data = ("##python").data ++ ['\n'] := by decide
  cases rest with
  | nil =>
    exfalso
    apply hf
    simp only [py_join] at ht
    rw [← ht]
    exact List.mem_append_left _ (by decide)
  | cons b t' =>
    rw [py_join_cons_data f b t', hp, List.append_assoc, List.singleton_append] at ht
    have hfeq : ("##python").data = f.data :=
      eq_of_newline_free_split _ _ _ _ (by decide) hf ht
    exact ⟨String.ext hfeq.symm, by simp⟩

/-- C9: with default executors included, the chain is the builtin
executor, then the caller-supplied executors in order, then the
python-script executor, then the shell executor; the python executor
claims exactly the lines starting with `"##python\n"`, which a
newline-free first fragment can produce only as a multi-line
continuation-joined command whose first fragment is `"##python"`. -/
theorem default_chain_layout (users : List (Executor Effect)) :
    ChainCommandExecutor.init true (some users) =
      BuiltInCommandExecutor.executor :: users ++
        [PythonCommandExecutor.executor, ShellCommandExecutor.executor]
    ∧ (∀ l, PythonCommandExecutor.can_run_cmd l = py_startswith l "##python\n")
    ∧ (∀ (f : String) (rest : List String), '\n' ∉ f.data →
        PythonCommandExecutor.can_run_cmd (py_join "\n" (f :: rest)) = true →
        f = "##python" ∧ rest ≠ []) :=
  ⟨by simp [ChainCommandExecutor.init], fun _ => rfl, python_claim_needs_nl_fragment⟩

/-- Witness for C9: the chain layout with no user executors, and the
python guard satisfied by the joined command `"##python\nprint(1)"`. -/
theorem default_chain_layout_witness :
    ChainCommandExecutor.init true (some []) =
      BuiltInCommandExecutor.executor :: [] ++
        [PythonCommandExecutor.executor, ShellCommandExecutor.executor]
    ∧ ("##python" = "##python" ∧ (["print(1)"] : List String) ≠ []) :=
  ⟨(default_chain_layout []).1,
   (default_chain_layout []).2.2 "##python" ["print(1)"] (by decide) (by decide)⟩

/-- Witness for the amended C8: the farewell write for `"bye"`
contributes `"bye"` plus two newlines to stderr. -/
theorem farewell_writes_message_witness :
    stderr_bytes (farewell_events (some "bye")) = "bye" ++ "\n" ++ "\n" :=
  (farewell_writes_message ex_ok 1 resetbuffer [] (some "bye")).2.2 "bye" (by decide)
